import Mathlib

/-
Shallow embedding of `Secret::create` from findelabs/lockbox (src/secret.rs).

Modelling conventions:
* Byte strings (`axum::body::Bytes`, `Vec<u8>`, `&[u8]`) are `List Nat`, each
  element intended below 256.
* Rust `String` values are Lean `String`; `String::as_bytes` is UTF-8
  encoding (`strBytes`).
* The nondeterministic inputs of `create` (the UUID, the thread-rng stream
  behind `Alphanumeric.sample_string`, and `Utc::now()`) are explicit
  parameters: `id`, `rng` (the stream of post-rejection samples in the
  62-symbol alphabet), and `now` (seconds since epoch).
* The orion AEAD primitives `seal`/`open` are fields of an `AeadScheme`
  parameter; `SecretKey::from_slice` is modelled concretely (orion accepts
  exactly 32-byte slices for `aead::SecretKey`).
* `hyper::HeaderMap` is projected onto the three headers the code reads;
  `HeaderValue::to_str` succeeds exactly on visible-ASCII bytes
  (32..=126 or tab), per the http crate.
* `std::collections::hash_map::DefaultHasher` is SipHash-1-3 with zero keys;
  hashing a `String` feeds its UTF-8 bytes followed by the byte 0xff.
-/

namespace Lockbox

abbrev Bytes := List Nat

/-- UTF-8 encoding of one scalar value (Rust `char` / Lean `Char`). -/
def utf8EncodeChar (c : Char) : List Nat :=
  let n := c.toNat
  if n < 0x80 then [n]
  else if n < 0x800 then [0xC0 + n / 64, 0x80 + n % 64]
  else if n < 0x10000 then
    [0xE0 + n / 4096, 0x80 + n / 64 % 64, 0x80 + n % 64]
  else
    [0xF0 + n / 262144, 0x80 + n / 4096 % 64, 0x80 + n / 64 % 64, 0x80 + n % 64]

/-- Rust `String::as_bytes`: the UTF-8 encoding of the string. -/
def strBytes (s : String) : Bytes :=
  s.toList.flatMap utf8EncodeChar

/-- Models `orion::aead::SecretKey::from_slice`, which succeeds exactly when
the slice has the ChaCha20 key size of 32 bytes (otherwise
`UnknownCryptoError`). The key is carried as its raw bytes. -/
def SecretKey.from_slice (slice : Bytes) : Except Unit Bytes :=
  if slice.length = 32 then Except.ok slice else Except.error ()

/-- The orion AEAD primitives used by the code, as an abstract scheme:
`aseal` models `orion::aead::seal` and `aopen` models `orion::aead::open`
(key bytes, then message/ciphertext); the names carry an `a` because `seal`
and `open` are reserved in Lean. Either operation may fail. -/
structure AeadScheme where
  aseal : Bytes → Bytes → Except Unit Bytes
  aopen : Bytes → Bytes → Except Unit Bytes

/-- The byte test of `http::HeaderValue::to_str`: visible ASCII or tab. -/
def is_visible_ascii (b : Nat) : Bool :=
  (decide (32 ≤ b) && decide (b ≤ 126)) || decide (b = 9)

/-- Models `http::HeaderValue::to_str`: yields the string exactly when every
byte is visible ASCII (32..=126) or tab; such bytes are single-byte
characters, so decoding is direct. -/
def HeaderValue.to_str (v : Bytes) : Except Unit String :=
  if v.all is_visible_ascii then Except.ok (String.mk (v.map Char.ofNat))
  else Except.error ()

/-- The projection of `hyper::HeaderMap` onto the three headers
`Secret::create` reads; each value is the raw header bytes. -/
structure HeaderMap where
  contentType : Option Bytes
  userAgent : Option Bytes
  xForwardedFor : Option Bytes

/-- The 62-symbol alphabet of `rand::distributions::Alphanumeric`. -/
def GEN_ASCII_STR_CHARSET : List Char :=
  "ABCDEFGHIJKLMNOPQRSTUVWXYZabcdefghijklmnopqrstuvwxyz0123456789".toList

/-- Models `Alphanumeric.sample_string(&mut rng, len)`: `len` characters,
each drawn from the 62-symbol alphabet; `rng i` is the i-th post-rejection
sample of the generator. -/
def sample_string (rng : Nat → Fin 62) (len : Nat) : String :=
  String.mk ((List.range len).map fun i => GEN_ASCII_STR_CHARSET.getD (rng i).val 'A')

/-- Reduction to 64-bit word arithmetic. -/
def w64 (n : Nat) : Nat := n % 2 ^ 64

/-- 64-bit left rotation of `x` (assumed below `2 ^ 64`) by `b` bits. -/
def rotl (x b : Nat) : Nat := x % 2 ^ (64 - b) * 2 ^ b + x / 2 ^ (64 - b)

/-- The four 64-bit state words of SipHash. -/
structure SipState where
  v0 : Nat
  v1 : Nat
  v2 : Nat
  v3 : Nat

/-- One SipHash round. -/
def sipround (s : SipState) : SipState :=
  let v0 := w64 (s.v0 + s.v1)
  let v1 := Nat.xor (rotl s.v1 13) v0
  let v0 := rotl v0 32
  let v2 := w64 (s.v2 + s.v3)
  let v3 := Nat.xor (rotl s.v3 16) v2
  let v0 := w64 (v0 + v3)
  let v3 := Nat.xor (rotl v3 21) v0
  let v2 := w64 (v2 + v1)
  let v1 := Nat.xor (rotl v1 17) v2
  let v2 := rotl v2 32
  ⟨v0, v1, v2, v3⟩

/-- SipHash-1-3 compression of one message word (one round per word). -/
def sipCompress (s : SipState) (m : Nat) : SipState :=
  let s := { s with v3 := Nat.xor s.v3 m }
  let s := sipround s
  { s with v0 := Nat.xor s.v0 m }

/-- Little-endian 64-bit word from up to eight bytes (missing bytes are 0). -/
def le64 (bs : List Nat) : Nat :=
  bs.foldr (fun b acc => b % 256 + 256 * acc) 0

/-- Consume the full 8-byte blocks of the message, returning the state and
the remaining tail of fewer than eight bytes. -/
def sipBlocks (s : SipState) : List Nat → SipState × List Nat
  | b0 :: b1 :: b2 :: b3 :: b4 :: b5 :: b6 :: b7 :: rest =>
      sipBlocks (sipCompress s (le64 [b0, b1, b2, b3, b4, b5, b6, b7])) rest
  | rest => (s, rest)

/-- SipHash-1-3 with both keys zero, as used by
`std::collections::hash_map::DefaultHasher::new()`. -/
def siphash13 (msg : List Nat) : Nat :=
  let s0 : SipState :=
    ⟨0x736f6d6570736575, 0x646f72616e646f6d, 0x6c7967656e657261, 0x7465646279746573⟩
  let sr := sipBlocks s0 msg
  let b := w64 (msg.length % 256 * 2 ^ 56 + le64 sr.2)
  let s := sipCompress sr.1 b
  let s := { s with v2 := Nat.xor s.v2 0xff }
  let s := sipround (sipround (sipround s))
  Nat.xor (Nat.xor s.v0 s.v1) (Nat.xor s.v2 s.v3)

/-- The password commitment of `Secret::create`: hash the password string
with a fresh `DefaultHasher` (`p.hash(&mut hasher)` feeds the UTF-8 bytes of
`p` followed by 0xff) and reinterpret the `u64` result as `i64`. -/
def defaultHash (p : String) : Int :=
  let h := siphash13 (strBytes p ++ [0xff])
  if h < 2 ^ 63 then (h : Int) else (h : Int) - 2 ^ 64

/-- Strict UTF-8 decoding of a byte string, following the spec wording
"present and valid UTF-8": succeeds exactly on well-formed UTF-8 (shortest
form, no surrogates, scalar values up to 0x10FFFF) and yields the decoded
string. Used only to state the specification side of content-type
classification; the code itself uses `HeaderValue.to_str`. -/
def utf8DecodeChars : List Nat → Option (List Char)
  | [] => some []
  | b0 :: rest =>
    if b0 < 0x80 then
      (utf8DecodeChars rest).map (fun cs => Char.ofNat b0 :: cs)
    else if 0xC2 ≤ b0 ∧ b0 ≤ 0xDF then
      match rest with
      | b1 :: rest1 =>
        if 0x80 ≤ b1 ∧ b1 ≤ 0xBF then
          (utf8DecodeChars rest1).map
            (fun cs => Char.ofNat ((b0 - 0xC0) * 64 + (b1 - 0x80)) :: cs)
        else none
      | [] => none
    else if 0xE0 ≤ b0 ∧ b0 ≤ 0xEF then
      match rest with
      | b1 :: b2 :: rest2 =>
        if (if b0 = 0xE0 then 0xA0 ≤ b1 ∧ b1 ≤ 0xBF
            else if b0 = 0xED then 0x80 ≤ b1 ∧ b1 ≤ 0x9F
            else 0x80 ≤ b1 ∧ b1 ≤ 0xBF) ∧ 0x80 ≤ b2 ∧ b2 ≤ 0xBF then
          (utf8DecodeChars rest2).map
            (fun cs =>
              Char.ofNat ((b0 - 0xE0) * 4096 + (b1 - 0x80) * 64 + (b2 - 0x80)) :: cs)
        else none
      | _ => none
    else if 0xF0 ≤ b0 ∧ b0 ≤ 0xF4 then
      match rest with
      | b1 :: b2 :: b3 :: rest3 =>
        if (if b0 = 0xF0 then 0x90 ≤ b1 ∧ b1 ≤ 0xBF
            else if b0 = 0xF4 then 0x80 ≤ b1 ∧ b1 ≤ 0x8F
            else 0x80 ≤ b1 ∧ b1 ≤ 0xBF) ∧
            0x80 ≤ b2 ∧ b2 ≤ 0xBF ∧ 0x80 ≤ b3 ∧ b3 ≤ 0xBF then
          (utf8DecodeChars rest3).map
            (fun cs =>
              Char.ofNat ((b0 - 0xF0) * 262144 + (b1 - 0x80) * 4096 +
                (b2 - 0x80) * 64 + (b3 - 0x80)) :: cs)
        else none
      | _ => none
    else none

/-- Strict UTF-8 decoding, packaged as a `String`. -/
def utf8Decode (v : Bytes) : Option String :=
  (utf8DecodeChars v).map String.mk

/-- The error type of the repository (`crate::error::Error`), restricted to
the one variant `Secret::create` can produce: `CryptoError`, raised when
orion key construction or sealing fails. -/
inductive RestError
  | CryptoError
deriving DecidableEq

/-- The `Meta` record of src/secret.rs. -/
structure Meta where
  content_type : String
  user_agent : Option String
  x_forwarded_for : Option String
  bytes : Nat
deriving DecidableEq

/-- The `LifecycleMax` record of src/secret.rs; `expires` is the
`bson::DateTime` as seconds since epoch. -/
structure LifecycleMax where
  reads : Int
  seconds : Int
  expires : Int
deriving DecidableEq

/-- The `LifecycleCurrent` record of src/secret.rs. -/
structure LifecycleCurrent where
  reads : Int
deriving DecidableEq

/-- The `Lifecycle` record of src/secret.rs. -/
structure Lifecycle where
  max : LifecycleMax
  current : LifecycleCurrent
deriving DecidableEq

/-- The `Facts` record of src/secret.rs. -/
structure Facts where
  pwd : Option Int
deriving DecidableEq

/-- The `Secret` record of src/secret.rs. -/
structure Secret where
  id : String
  active : Bool
  meta : Meta
  lifecycle : Lifecycle
  facts : Facts
deriving DecidableEq

/-- The `SecretPlusData` result record of src/secret.rs. -/
structure SecretPlusData where
  secret : Secret
  key : String
  value : Bytes
deriving DecidableEq

/-- Shallow embedding of `Secret::create` (src/secret.rs, lines 63-179).
Explicit parameters replace the ambient effects: `A` the orion AEAD
primitives, `inferGet` the `infer::get` content sniffer (returning the
detected MIME string), `id` the generated UUID string, `rng` the thread-rng
sample stream, `now` the value of `Utc::now()` in seconds since epoch. The
remaining parameters are those of the Rust function. -/
def Secret.create (A : AeadScheme) (inferGet : Bytes → Option String)
    (id : String) (rng : Nat → Fin 62) (now : Int)
    (value : Bytes) (expire_reads expire_seconds : Option Int)
    (pwd : Option String) (headers : HeaderMap) :
    Except RestError SecretPlusData :=
  -- Generate random encryption key
  let key := sample_string rng 32
  match SecretKey.from_slice (strBytes key) with
  | Except.error _ => Except.error RestError.CryptoError
  | Except.ok secret_key =>
    -- Detect binary mime-type, fallback on content-type header
    let content_type :=
      match inferGet value with
      | some t => t
      | none =>
        match headers.contentType with
        | some h =>
          match HeaderValue.to_str h with
          | Except.ok s => s
          | Except.error _ => "error"
        | none => "none"
    -- Encrypt data with key
    match A.aseal secret_key value with
    | Except.error _ => Except.error RestError.CryptoError
    | Except.ok ciphertext =>
      -- Get payload size
      let bytes := ciphertext.length
      -- If neither expiration reads nor seconds is specified, then read
      -- expiration should default to one
      let expire_reads : Int :=
        match expire_reads with
        | some r => r
        | none => if expire_seconds.isNone then 1 else -1
      -- Ensure max expire_seconds is less than a month
      let expire_seconds : Int :=
        match expire_seconds with
        | some v => if v > 2592000 then 2592000 else v
        | none => 3600
      -- Secret expiration is now + expiration seconds
      let expires_at := now + expire_seconds
      -- Hash password if one was provided
      let pwd :=
        match pwd with
        | some p => some (defaultHash p)
        | none => none
      -- Get x-forwarded-for header
      let x_forwarded_for := headers.xForwardedFor.map fun s =>
        match HeaderValue.to_str s with
        | Except.ok t => t
        | Except.error _ => "error"
      -- Get user-agent header
      let user_agent := headers.userAgent.map fun s =>
        match HeaderValue.to_str s with
        | Except.ok t => t
        | Except.error _ => "error"
      Except.ok
        { secret :=
            { id := id
              active := true
              meta :=
                { content_type := content_type
                  bytes := bytes
                  x_forwarded_for := x_forwarded_for
                  user_agent := user_agent }
              lifecycle :=
                { max :=
                    { reads := expire_reads
                      seconds := expire_seconds
                      expires := expires_at }
                  current := { reads := 0 } }
              facts := { pwd := pwd } }
          key := key
          value := ciphertext }

/-- Default record, used only to name concrete evaluation results. -/
instance : Inhabited SecretPlusData :=
  ⟨⟨⟨"", false, ⟨"", none, none, 0⟩, ⟨⟨0, 0, 0⟩, ⟨0⟩⟩, ⟨none⟩⟩, "", []⟩⟩

/-- A concrete AEAD scheme for witnesses: sealing prepends the key, opening
strips and checks it. It satisfies the round-trip law of an AEAD. -/
def demoScheme : AeadScheme where
  aseal := fun k m => Except.ok (k ++ m)
  aopen := fun k c =>
    if c.take k.length = k then Except.ok (c.drop k.length) else Except.error ()

/-- A content sniffer that detects nothing, the behaviour of `infer::get` on
inputs matching no magic number. -/
def inferNone : Bytes → Option String := fun _ => none

/-- A constant random stream (every sample is symbol 0 of the alphabet). -/
def rng0 : Nat → Fin 62 := fun _ => ⟨0, by decide⟩

/-- An empty header map. -/
def noHeaders : HeaderMap := ⟨none, none, none⟩

/-- The normalization of `expire_seconds` performed by the code, as a plain
function: clamp values above 2,592,000, default an absent value to 3600. -/
def normSeconds (es : Option Int) : Int :=
  (es.map fun v => if v > 2592000 then 2592000 else v).getD 3600

/-- The defaulting of `expire_reads` performed by the code, as a plain
function: keep a supplied value, else default on whether `expire_seconds`
was supplied. -/
def normReads (er es : Option Int) : Int :=
  er.getD (if es.isNone then 1 else -1)

/-- The content-type classification performed by the code, as a plain
function: byte sniffing first, then the Content-Type header decoded with
`HeaderValue.to_str`, with markers "error" and "none". -/
def classifyContentType (inferGet : Bytes → Option String) (value : Bytes)
    (headers : HeaderMap) : String :=
  (inferGet value).getD
    ((headers.contentType.map fun hv =>
      ((HeaderValue.to_str hv).toOption.getD "error")).getD "none")

/-- A header map carrying a Content-Type value that is valid UTF-8 but not
visible ASCII: the two bytes 0xC3 0xA9, the encoding of "é". -/
def accentHeaders : HeaderMap := ⟨some [195, 169], none, none⟩

/-- A header map carrying the Content-Type value "text/plain". -/
def textPlainHeaders : HeaderMap :=
  ⟨some [116, 101, 120, 116, 47, 112, 108, 97, 105, 110], none, none⟩

/-- Concrete run for the clamping witness: `expire_seconds = Some 9999999999`. -/
def clampRun : SecretPlusData :=
  ((Secret.create demoScheme inferNone "w1" rng0 0 [104] none (some 9999999999) none
      noHeaders).toOption).getD default

/-- Concrete run for the read-sentinel witness: `expire_reads = Some (-1)`. -/
def negOneRun : SecretPlusData :=
  ((Secret.create demoScheme inferNone "w2" rng0 0 [104] (some (-1)) none none
      noHeaders).toOption).getD default

/-- Concrete run for the burn-after-reading witness: no expiration inputs. -/
def burnRun : SecretPlusData :=
  ((Secret.create demoScheme inferNone "w3" rng0 0 [104, 105] none none none
      noHeaders).toOption).getD default

/-- Concrete run for the month-clamp witness: `expire_seconds = Some 2700000`. -/
def monthRun : SecretPlusData :=
  ((Secret.create demoScheme inferNone "w4" rng0 1000 [104] none (some 2700000) none
      noHeaders).toOption).getD default

/-- Concrete run for the ciphertext-size witness: two plaintext bytes. -/
def sizeRun : SecretPlusData :=
  ((Secret.create demoScheme inferNone "w5" rng0 0 [104, 105] none none none
      noHeaders).toOption).getD default

/-- First concrete run for the password witness: password "s3cret". -/
def pwdRunA : SecretPlusData :=
  ((Secret.create demoScheme inferNone "w6a" rng0 0 [104] none none (some "s3cret")
      noHeaders).toOption).getD default

/-- Second concrete run for the password witness: same password, every other
input different. -/
def pwdRunB : SecretPlusData :=
  ((Secret.create demoScheme inferNone "w6b" rng0 77 [1, 2, 3] (some 4) (some 60)
      (some "s3cret") textPlainHeaders).toOption).getD default

/-- Concrete run for the content-type witness: Content-Type header
"text/plain", nothing sniffed. -/
def typedRun : SecretPlusData :=
  ((Secret.create demoScheme inferNone "w7" rng0 0 [104] none none none
      textPlainHeaders).toOption).getD default

/-- Concrete run for the round-trip witness. -/
def rtRun : SecretPlusData :=
  ((Secret.create demoScheme inferNone "w9" rng0 0 [1, 2, 3] none none none
      noHeaders).toOption).getD default

lemma demoScheme_roundtrip (k m c : Bytes) (h : demoScheme.aseal k m = Except.ok c) :
    demoScheme.aopen k c = Except.ok m := by
  simp only [demoScheme] at h ⊢
  injection h with h1
  subst h1
  rw [if_pos (List.take_left k m), List.drop_left]

lemma utf8EncodeChar_ascii (c : Char) (h : c.toNat < 128) :
    utf8EncodeChar c = [c.toNat] := by
  simp [utf8EncodeChar, h]

lemma flatMap_utf8_ascii (l : List Char) (h : ∀ c ∈ l, c.toNat < 128) :
    l.flatMap utf8EncodeChar = l.map Char.toNat := by
  induction l with
  | nil => rfl
  | cons c cs ih =>
    rw [List.flatMap_cons, List.map_cons, utf8EncodeChar_ascii c (h c (by simp)),
      ih fun x hx => h x (by simp [hx])]
    rfl

lemma charset_getD_lt : ∀ j : Fin 62,
    (GEN_ASCII_STR_CHARSET.getD j.val 'A').toNat < 128 := by
  decide

lemma charset_getD_mem : ∀ j : Fin 62,
    GEN_ASCII_STR_CHARSET.contains (GEN_ASCII_STR_CHARSET.getD j.val 'A') = true := by
  decide

lemma strBytes_sample_string (rng : Nat → Fin 62) (len : Nat) :
    strBytes (sample_string rng len) =
      (List.range len).map fun i => (GEN_ASCII_STR_CHARSET.getD (rng i).val 'A').toNat := by
  have h : ∀ c ∈ (List.range len).map fun i => GEN_ASCII_STR_CHARSET.getD (rng i).val 'A',
      c.toNat < 128 := by
    intro c hc
    simp only [List.mem_map] at hc
    obtain ⟨i, _, rfl⟩ := hc
    exact charset_getD_lt (rng i)
  calc strBytes (sample_string rng len)
      = ((List.range len).map fun i =>
          GEN_ASCII_STR_CHARSET.getD (rng i).val 'A').flatMap utf8EncodeChar := rfl
    _ = ((List.range len).map fun i =>
          GEN_ASCII_STR_CHARSET.getD (rng i).val 'A').map Char.toNat :=
        flatMap_utf8_ascii _ h
    _ = _ := by rw [List.map_map]; rfl

lemma strBytes_sample_string_length (rng : Nat → Fin 62) :
    (strBytes (sample_string rng 32)).length = 32 := by
  rw [strBytes_sample_string]
  simp

lemma from_slice_sample (rng : Nat → Fin 62) :
    SecretKey.from_slice (strBytes (sample_string rng 32)) =
      Except.ok (strBytes (sample_string rng 32)) := by
  unfold SecretKey.from_slice
  rw [if_pos (strBytes_sample_string_length rng)]

/-- `Secret.create` as one top-level case split on the sealing step. -/
lemma create_eq (A : AeadScheme) (inferGet : Bytes → Option String)
    (id : String) (rng : Nat → Fin 62) (now : Int) (value : Bytes)
    (er es : Option Int) (pwd : Option String) (headers : HeaderMap) :
    Secret.create A inferGet id rng now value er es pwd headers =
      match A.aseal (strBytes (sample_string rng 32)) value with
      | Except.error _ => Except.error RestError.CryptoError
      | Except.ok ciphertext =>
        Except.ok
          { secret :=
              { id := id
                active := true
                meta :=
                  { content_type :=
                      match inferGet value with
                      | some t => t
                      | none =>
                        match headers.contentType with
                        | some h =>
                          match HeaderValue.to_str h with
                          | Except.ok s => s
                          | Except.error _ => "error"
                        | none => "none"
                    bytes := ciphertext.length
                    x_forwarded_for := headers.xForwardedFor.map fun s =>
                      match HeaderValue.to_str s with
                      | Except.ok t => t
                      | Except.error _ => "error"
                    user_agent := headers.userAgent.map fun s =>
                      match HeaderValue.to_str s with
                      | Except.ok t => t
                      | Except.error _ => "error" }
                lifecycle :=
                  { max :=
                      { reads :=
                          match er with
                          | some r => r
                          | none => if es.isNone then 1 else -1
                        seconds :=
                          match es with
                          | some v => if v > 2592000 then 2592000 else v
                          | none => 3600
                        expires :=
                          now +
                            match es with
                            | some v => if v > 2592000 then 2592000 else v
                            | none => 3600 }
                    current := { reads := 0 } }
                facts :=
                  { pwd :=
                      match pwd with
                      | some p => some (defaultHash p)
                      | none => none } }
            key := sample_string rng 32
            value := ciphertext } := by
  simp only [Secret.create, from_slice_sample rng]

/-- Characterization of every successful run of `Secret.create`: the sealing
step succeeded and every field of the result is as computed by the code. -/
lemma create_ok_fields (A : AeadScheme) (inferGet : Bytes → Option String)
    (id : String) (rng : Nat → Fin 62) (now : Int) (value : Bytes)
    (er es : Option Int) (pwd : Option String) (headers : HeaderMap)
    (out : SecretPlusData)
    (h : Secret.create A inferGet id rng now value er es pwd headers = Except.ok out) :
    A.aseal (strBytes (sample_string rng 32)) value = Except.ok out.value ∧
    out.key = sample_string rng 32 ∧
    out.secret.id = id ∧
    out.secret.active = true ∧
    out.secret.meta.bytes = out.value.length ∧
    out.secret.meta.content_type = classifyContentType inferGet value headers ∧
    out.secret.lifecycle.max.reads = normReads er es ∧
    out.secret.lifecycle.max.seconds = normSeconds es ∧
    out.secret.lifecycle.max.expires = now + out.secret.lifecycle.max.seconds ∧
    out.secret.lifecycle.current.reads = 0 ∧
    out.secret.facts.pwd = pwd.map defaultHash := by
  rw [create_eq] at h
  cases hseal : A.aseal (strBytes (sample_string rng 32)) value with
  | error e =>
    rw [hseal] at h
    exact Except.noConfusion h
  | ok ciphertext =>
    rw [hseal] at h
    injection h with h1
    subst h1
    refine ⟨rfl, rfl, rfl, rfl, rfl, ?_, ?_, ?_, ?_, rfl, ?_⟩
    · show _ = classifyContentType inferGet value headers
      unfold classifyContentType
      cases inferGet value with
      | some t => rfl
      | none =>
        cases headers.contentType with
        | none => rfl
        | some hv =>
          cases h2 : HeaderValue.to_str hv <;>
            simp [h2, Except.toOption]
    · show _ = normReads er es
      unfold normReads
      cases er <;> rfl
    · show _ = normSeconds es
      unfold normSeconds
      cases es <;> rfl
    · cases es <;> rfl
    · cases pwd <;> rfl

/-- Claim C1, counterexample: with `expire_seconds = Some 0` the call
succeeds and stores `lifecycle.max.seconds = 0`, which is outside the
interval `[1, 2592000]` asserted by the claim. -/
theorem create_seconds_zero_passthrough :
    (Secret.create demoScheme inferNone "id" rng0 0 [104, 105] none (some 0) none
        noHeaders).toOption.map (fun o => o.secret.lifecycle.max.seconds) = some 0 ∧
      ¬ (1 ≤ (0 : Int) ∧ (0 : Int) ≤ 2592000) := by
  decide

/-- Claim C1 (amended): after every successful `Secret::create`,
`lifecycle.max.seconds` is at most 2592000; the lower bound 1 additionally
holds whenever `expire_seconds` is absent or its supplied value is at least
1, but a supplied zero or negative value is stored unchanged. -/
theorem create_max_seconds_upper_bound (A : AeadScheme)
    (inferGet : Bytes → Option String) (id : String) (rng : Nat → Fin 62)
    (now : Int) (value : Bytes) (er es : Option Int) (pwd : Option String)
    (headers : HeaderMap) (out : SecretPlusData)
    (h : Secret.create A inferGet id rng now value er es pwd headers = Except.ok out) :
    out.secret.lifecycle.max.seconds ≤ 2592000 ∧
      (1 ≤ es.getD 3600 → 1 ≤ out.secret.lifecycle.max.seconds) := by
  obtain ⟨-, -, -, -, -, -, -, hsec, -, -, -⟩ :=
    create_ok_fields A inferGet id rng now value er es pwd headers out h
  rw [hsec]
  unfold normSeconds
  cases es with
  | none => simp
  | some v =>
    simp only [Option.map_some', Option.getD_some, Option.getD_none]
    constructor
    · split <;> omega
    · intro h1
      split <;> omega

/-- Witness for the amended C1 at `expire_seconds = Some 9999999999`. -/
theorem create_max_seconds_upper_bound_witness :
    Secret.create demoScheme inferNone "w1" rng0 0 [104] none (some 9999999999) none
        noHeaders = Except.ok clampRun ∧
      clampRun.secret.lifecycle.max.seconds ≤ 2592000 ∧
      1 ≤ clampRun.secret.lifecycle.max.seconds := by
  have h := create_max_seconds_upper_bound demoScheme inferNone "w1" rng0 0 [104] none
    (some 9999999999) none noHeaders clampRun rfl
  exact ⟨rfl, h.1, h.2 (by decide)⟩

/-- Claim C2, counterexample: with `expire_reads = Some 0` the call succeeds
and stores `lifecycle.max.reads = 0`, which is neither strictly positive nor
exactly -1 as the claim asserts. -/
theorem create_reads_zero_passthrough :
    (Secret.create demoScheme inferNone "id" rng0 0 [104, 105] (some 0) none none
        noHeaders).toOption.map (fun o => o.secret.lifecycle.max.reads) = some 0 ∧
      ¬ (0 < (0 : Int) ∨ (0 : Int) = -1) := by
  decide

/-- Claim C2 (amended): a supplied `expire_reads` is stored unchanged
(including zero and negative values), so after a successful `Secret::create`
the field `lifecycle.max.reads` is strictly positive or exactly -1 whenever
`expire_reads` is absent or its supplied value is itself strictly positive
or -1. -/
theorem create_max_reads_sentinel (A : AeadScheme)
    (inferGet : Bytes → Option String) (id : String) (rng : Nat → Fin 62)
    (now : Int) (value : Bytes) (er es : Option Int) (pwd : Option String)
    (headers : HeaderMap) (out : SecretPlusData)
    (h : Secret.create A inferGet id rng now value er es pwd headers = Except.ok out) :
    (0 < er.getD 1 ∨ er.getD 1 = -1) →
      (0 < out.secret.lifecycle.max.reads ∨ out.secret.lifecycle.max.reads = -1) := by
  obtain ⟨-, -, -, -, -, -, hreads, -, -, -, -⟩ :=
    create_ok_fields A inferGet id rng now value er es pwd headers out h
  rw [hreads]
  unfold normReads
  cases er with
  | some r => exact fun hr => hr
  | none =>
    intro _
    cases hes : es.isNone <;> simp [hes]

/-- Witness for the amended C2 at `expire_reads = Some (-1)`. -/
theorem create_max_reads_sentinel_witness :
    Secret.create demoScheme inferNone "w2" rng0 0 [104] (some (-1)) none none
        noHeaders = Except.ok negOneRun ∧
      (0 < negOneRun.secret.lifecycle.max.reads ∨
        negOneRun.secret.lifecycle.max.reads = -1) := by
  have h := create_max_reads_sentinel demoScheme inferNone "w2" rng0 0 [104]
    (some (-1)) none none noHeaders negOneRun rfl (by decide)
  exact ⟨rfl, h⟩

/-- Claim C3: after every successful `Secret::create`, `lifecycle.max.reads`
follows the precedence of the code: a supplied `expire_reads` verbatim
(including -1), else 1 when `expire_seconds` is also absent, else -1. -/
theorem create_max_reads_precedence (A : AeadScheme)
    (inferGet : Bytes → Option String) (id : String) (rng : Nat → Fin 62)
    (now : Int) (value : Bytes) (er es : Option Int) (pwd : Option String)
    (headers : HeaderMap) (out : SecretPlusData)
    (h : Secret.create A inferGet id rng now value er es pwd headers = Except.ok out) :
    out.secret.lifecycle.max.reads = er.getD (if es.isNone then 1 else -1) := by
  obtain ⟨-, -, -, -, -, -, hreads, -, -, -, -⟩ :=
    create_ok_fields A inferGet id rng now value er es pwd headers out h
  exact hreads

/-- Witness for C3 with both expiration inputs absent: one read. -/
theorem create_max_reads_precedence_witness :
    Secret.create demoScheme inferNone "w3" rng0 0 [104, 105] none none none
        noHeaders = Except.ok burnRun ∧
      burnRun.secret.lifecycle.max.reads = 1 := by
  have h := create_max_reads_precedence demoScheme inferNone "w3" rng0 0 [104, 105]
    none none none noHeaders burnRun rfl
  exact ⟨rfl, h.trans (by decide)⟩

/-- Claim C4: after every successful `Secret::create`,
`lifecycle.max.seconds` is the supplied `expire_seconds` clamped from above
at 2592000 (3600 when absent), and `lifecycle.max.expires` is the creation
time plus `lifecycle.max.seconds`. -/
theorem create_max_seconds_clamp (A : AeadScheme)
    (inferGet : Bytes → Option String) (id : String) (rng : Nat → Fin 62)
    (now : Int) (value : Bytes) (er es : Option Int) (pwd : Option String)
    (headers : HeaderMap) (out : SecretPlusData)
    (h : Secret.create A inferGet id rng now value er es pwd headers = Except.ok out) :
    out.secret.lifecycle.max.seconds =
        (es.map fun v => if v > 2592000 then 2592000 else v).getD 3600 ∧
      out.secret.lifecycle.max.expires = now + out.secret.lifecycle.max.seconds := by
  obtain ⟨-, -, -, -, -, -, -, hsec, hexp, -, -⟩ :=
    create_ok_fields A inferGet id rng now value er es pwd headers out h
  exact ⟨hsec, hexp⟩

/-- Witness for C4 at `expire_seconds = Some 2700000`, created at time 1000:
the stored bound is 2592000 and the expiry is 1000 + 2592000. -/
theorem create_max_seconds_clamp_witness :
    Secret.create demoScheme inferNone "w4" rng0 1000 [104] none (some 2700000) none
        noHeaders = Except.ok monthRun ∧
      monthRun.secret.lifecycle.max.seconds = 2592000 ∧
      monthRun.secret.lifecycle.max.expires = 1000 + 2592000 := by
  have h := create_max_seconds_clamp demoScheme inferNone "w4" rng0 1000 [104] none
    (some 2700000) none noHeaders monthRun rfl
  refine ⟨rfl, ?_, ?_⟩
  · rw [h.1]
    decide
  · rw [h.2, h.1]
    decide

/-- Claim C5: after every successful `Secret::create`, `meta.bytes` equals
the byte length of the returned ciphertext `SecretPlusData.value`. -/
theorem create_meta_bytes (A : AeadScheme)
    (inferGet : Bytes → Option String) (id : String) (rng : Nat → Fin 62)
    (now : Int) (value : Bytes) (er es : Option Int) (pwd : Option String)
    (headers : HeaderMap) (out : SecretPlusData)
    (h : Secret.create A inferGet id rng now value er es pwd headers = Except.ok out) :
    out.secret.meta.bytes = out.value.length := by
  obtain ⟨-, -, -, -, hbytes, -, -, -, -, -, -⟩ :=
    create_ok_fields A inferGet id rng now value er es pwd headers out h
  exact hbytes

/-- Witness for C5: two plaintext bytes, a 34-byte ciphertext under the demo
scheme, and `meta.bytes = 34` (the ciphertext length, not the input length). -/
theorem create_meta_bytes_witness :
    Secret.create demoScheme inferNone "w5" rng0 0 [104, 105] none none none
        noHeaders = Except.ok sizeRun ∧
      sizeRun.secret.meta.bytes = sizeRun.value.length ∧
      sizeRun.value.length = 34 := by
  have h := create_meta_bytes demoScheme inferNone "w5" rng0 0 [104, 105] none none
    none noHeaders sizeRun rfl
  exact ⟨rfl, h, by decide⟩

/-- Claim C6: after every call to `Secret::create`, `facts.pwd` is the image
of the supplied password under the fixed hash `defaultHash` (so it is
present exactly when a password was supplied), and any second successful
call with the same password and arbitrary other inputs stores the same
commitment. -/
theorem create_pwd_commitment (A A2 : AeadScheme)
    (inferGet inferGet2 : Bytes → Option String) (id id2 : String)
    (rng rng2 : Nat → Fin 62) (now now2 : Int) (value value2 : Bytes)
    (er er2 es es2 : Option Int) (pwd : Option String) (p : String)
    (headers headers2 : HeaderMap) (out out2 : SecretPlusData)
    (h : Secret.create A inferGet id rng now value er es pwd headers = Except.ok out)
    (h2 : Secret.create A2 inferGet2 id2 rng2 now2 value2 er2 es2 (some p) headers2 =
      Except.ok out2) :
    out.secret.facts.pwd = pwd.map defaultHash ∧
      out.secret.facts.pwd.isSome = pwd.isSome ∧
      out2.secret.facts.pwd = some (defaultHash p) := by
  obtain ⟨-, -, -, -, -, -, -, -, -, -, hp⟩ :=
    create_ok_fields A inferGet id rng now value er es pwd headers out h
  obtain ⟨-, -, -, -, -, -, -, -, -, -, hp2⟩ :=
    create_ok_fields A2 inferGet2 id2 rng2 now2 value2 er2 es2 (some p) headers2 out2 h2
  refine ⟨hp, ?_, hp2⟩
  rw [hp]
  cases pwd <;> rfl

/-- Witness for C6: two runs with password "s3cret" and different other
inputs store the same commitment. -/
theorem create_pwd_commitment_witness :
    Secret.create demoScheme inferNone "w6a" rng0 0 [104] none none (some "s3cret")
        noHeaders = Except.ok pwdRunA ∧
      Secret.create demoScheme inferNone "w6b" rng0 77 [1, 2, 3] (some 4) (some 60)
        (some "s3cret") textPlainHeaders = Except.ok pwdRunB ∧
      pwdRunA.secret.facts.pwd = some (defaultHash "s3cret") ∧
      pwdRunA.secret.facts.pwd = pwdRunB.secret.facts.pwd := by
  have h := create_pwd_commitment demoScheme demoScheme inferNone inferNone "w6a" "w6b"
    rng0 rng0 0 77 [104] [1, 2, 3] none (some 4) none (some 60) (some "s3cret") "s3cret"
    noHeaders textPlainHeaders pwdRunA pwdRunB rfl rfl
  have h2 := create_pwd_commitment demoScheme demoScheme inferNone inferNone "w6b" "w6a"
    rng0 rng0 77 0 [1, 2, 3] [104] (some 4) none (some 60) none (some "s3cret") "s3cret"
    textPlainHeaders noHeaders pwdRunB pwdRunA rfl rfl
  exact ⟨rfl, rfl, h2.2.2, h.1.trans h2.1.symm⟩

/-- Claim C7, counterexample: the Content-Type header bytes 0xC3 0xA9 are
valid UTF-8 (decoding to "é"), nothing is sniffed, yet the code stores the
marker "error" instead of the decoded value, because `HeaderValue::to_str`
accepts only visible ASCII. -/
theorem create_content_type_nonascii :
    (Secret.create demoScheme inferNone "id" rng0 0 [104] none none none
        accentHeaders).toOption.map (fun o => o.secret.meta.content_type) =
        some "error" ∧
      utf8Decode [195, 169] = some "é" := by
  decide

/-- Claim C7 (amended): after every successful `Secret::create`,
`meta.content_type` is the sniffed MIME string when detection succeeds (any
header is then ignored); otherwise the Content-Type header value when it is
entirely visible ASCII (bytes 32..=126 or tab); otherwise the marker
"error" when the header is present but not so decodable; otherwise the
marker "none". -/
theorem create_content_type_precedence (A : AeadScheme)
    (inferGet : Bytes → Option String) (id : String) (rng : Nat → Fin 62)
    (now : Int) (value : Bytes) (er es : Option Int) (pwd : Option String)
    (headers : HeaderMap) (out : SecretPlusData)
    (h : Secret.create A inferGet id rng now value er es pwd headers = Except.ok out) :
    out.secret.meta.content_type =
      (inferGet value).getD
        ((headers.contentType.map fun hv =>
            if hv.all is_visible_ascii then String.mk (hv.map Char.ofNat)
            else "error").getD "none") := by
  obtain ⟨-, -, -, -, -, hct, -, -, -, -, -⟩ :=
    create_ok_fields A inferGet id rng now value er es pwd headers out h
  rw [hct]
  unfold classifyContentType
  cases inferGet value with
  | some t => rfl
  | none =>
    cases headers.contentType with
    | none => rfl
    | some hv =>
      show (HeaderValue.to_str hv).toOption.getD "error" =
        if hv.all is_visible_ascii then String.mk (hv.map Char.ofNat) else "error"
      unfold HeaderValue.to_str
      by_cases hc : hv.all is_visible_ascii = true
      · rw [if_pos hc, if_pos hc]
        rfl
      · rw [if_neg hc, if_neg hc]
        rfl

/-- Witness for the amended C7: header "text/plain", nothing sniffed, stored
verbatim. -/
theorem create_content_type_precedence_witness :
    Secret.create demoScheme inferNone "w7" rng0 0 [104] none none none
        textPlainHeaders = Except.ok typedRun ∧
      typedRun.secret.meta.content_type = "text/plain" := by
  have h := create_content_type_precedence demoScheme inferNone "w7" rng0 0 [104]
    none none none textPlainHeaders typedRun rfl
  exact ⟨rfl, h.trans (by decide)⟩

/-- Claim C8: `Secret::create` returns an error exactly when a cryptographic
step fails, that is, when key construction from the generated key bytes
fails or when sealing fails; the header and expiration inputs cannot cause
failure, and by the result type the error path carries no record, key, or
ciphertext. -/
theorem create_error_iff_crypto (A : AeadScheme)
    (inferGet : Bytes → Option String) (id : String) (rng : Nat → Fin 62)
    (now : Int) (value : Bytes) (er es : Option Int) (pwd : Option String)
    (headers : HeaderMap) :
    (∃ e, Secret.create A inferGet id rng now value er es pwd headers =
        Except.error e) ↔
      ((∃ u, SecretKey.from_slice (strBytes (sample_string rng 32)) =
          Except.error u) ∨
        (∃ u, A.aseal (strBytes (sample_string rng 32)) value = Except.error u)) := by
  rw [create_eq]
  cases hseal : A.aseal (strBytes (sample_string rng 32)) value with
  | error e =>
    constructor
    · intro _
      exact Or.inr ⟨e, rfl⟩
    · intro _
      exact ⟨RestError.CryptoError, rfl⟩
  | ok ciphertext =>
    constructor
    · rintro ⟨e2, he⟩
      exact Except.noConfusion he
    · rintro (⟨u, hu⟩ | ⟨u, hu⟩)
      · rw [from_slice_sample rng] at hu
        exact Except.noConfusion hu
      · exact Except.noConfusion hu

/-- Claim C9: opening the returned ciphertext under the returned key with
the same AEAD scheme recovers the input bytes, for every scheme satisfying
the AEAD round-trip law. -/
theorem create_roundtrip (A : AeadScheme)
    (inferGet : Bytes → Option String) (id : String) (rng : Nat → Fin 62)
    (now : Int) (value : Bytes) (er es : Option Int) (pwd : Option String)
    (headers : HeaderMap) (out : SecretPlusData)
    (hA : ∀ k m c, A.aseal k m = Except.ok c → A.aopen k c = Except.ok m)
    (h : Secret.create A inferGet id rng now value er es pwd headers = Except.ok out) :
    A.aopen (strBytes out.key) out.value = Except.ok value := by
  obtain ⟨hseal, hkey, -, -, -, -, -, -, -, -, -⟩ :=
    create_ok_fields A inferGet id rng now value er es pwd headers out h
  rw [hkey]
  exact hA _ _ _ hseal

/-- Witness for C9 on the demo scheme and the input bytes [1, 2, 3]. -/
theorem create_roundtrip_witness :
    Secret.create demoScheme inferNone "w9" rng0 0 [1, 2, 3] none none none
        noHeaders = Except.ok rtRun ∧
      demoScheme.aopen (strBytes rtRun.key) rtRun.value = Except.ok [1, 2, 3] := by
  have h := create_roundtrip demoScheme inferNone "w9" rng0 0 [1, 2, 3] none none
    none noHeaders rtRun (fun k m c hk => demoScheme_roundtrip k m c hk) rfl
  exact ⟨rfl, h⟩

/-- Claim C10: for every random stream, the generated key is a 32-character
string over the 62-symbol alphanumeric alphabet, its byte representation
has exactly 32 bytes, and `SecretKey::from_slice` on it succeeds, so the
key-construction error branch of `Secret::create` is unreachable. -/
theorem key_construction_total (rng : Nat → Fin 62) :
    (sample_string rng 32).length = 32 ∧
      ((sample_string rng 32).toList.all fun c =>
        GEN_ASCII_STR_CHARSET.contains c) = true ∧
      (strBytes (sample_string rng 32)).length = 32 ∧
      SecretKey.from_slice (strBytes (sample_string rng 32)) =
        Except.ok (strBytes (sample_string rng 32)) := by
  refine ⟨?_, ?_, strBytes_sample_string_length rng, from_slice_sample rng⟩
  · show (String.mk ((List.range 32).map fun i =>
      GEN_ASCII_STR_CHARSET.getD (rng i).val 'A')).length = 32
    simp [String.length]
  · rw [List.all_eq_true]
    intro c hc
    have hc2 : c ∈ (List.range 32).map fun i =>
        GEN_ASCII_STR_CHARSET.getD (rng i).val 'A' := hc
    simp only [List.mem_map] at hc2
    obtain ⟨i, -, rfl⟩ := hc2
    exact charset_getD_mem (rng i)

end Lockbox
